import Mathlib

/-!
Shallow embedding of `src/budget_tracker.py`, a terminal budget tracker.

Modelling conventions:
* Python `float` amounts are modelled as `Rat` (the program only ever adds,
  subtracts and compares finite amounts).
* Interactive `input()` is modelled by threading an explicit input stream
  `List String`; a prompt consumes the head of the stream.  A re-prompt loop
  (`ask_for_number`, `yes_or_no`, `select_expense`) recurses down the stream
  and returns `none` when the stream is exhausted without a valid answer
  (the Python loop would keep blocking on the terminal).
* Python exceptions that escape a function are modelled with `Except PyError`.
* The persisted JSON file is modelled structurally: `FileContent` is either a
  missing file, content that fails JSON parsing (`json.JSONDecodeError`), or a
  parsed JSON document `Json`.
-/

/-- The `Expense` TypedDict of the source: a description/amount record. -/
structure Expense where
  description : String
  amount : Rat
deriving DecidableEq, Repr

instance : Inhabited Expense := ⟨⟨"", 0⟩⟩

/-- Exception classes that the modelled code can raise. -/
inductive PyError where
  | keyError
  | typeError
  | valueError
  | indexError
deriving DecidableEq, Repr

/-! ### Record store: derived values (source lines 66-71) -/

/-- Model of `get_total_expenses`: Python
`sum(expense['amount'] for expense in expenses)`, a left fold from `0`. -/
def get_total_expenses (expenses : List Expense) : Rat :=
  expenses.foldl (fun acc e => acc + e.amount) 0

/-- Model of `get_balance`: `budget - get_total_expenses(expenses)`. -/
def get_balance (budget : Rat) (expenses : List Expense) : Rat :=
  budget - get_total_expenses expenses

/-! ### Numeric input parsing

Python `int(...)` / `float(...)` applied to an input line, modelled on
canonical decimal numerals: an optional sign followed by digits (and for
floats an optional fractional part).  `none` models `ValueError`. -/

def isAsciiDigit (c : Char) : Bool := '0' ≤ c && c ≤ '9'

def digitsToNat (ds : List Char) : Nat :=
  ds.foldl (fun a c => 10 * a + (c.toNat - 48)) 0

/-- Split a leading sign character; `true` means negative. -/
def splitSign : List Char → Bool × List Char
  | '-' :: cs => (true, cs)
  | '+' :: cs => (false, cs)
  | cs => (false, cs)

/-- Python `int(s)` on a canonical base-10 numeral. -/
def parseIntPy (s : String) : Option Int :=
  let p := splitSign s.data
  if p.2 ≠ [] ∧ p.2.all isAsciiDigit then
    some (if p.1 then -(digitsToNat p.2 : Int) else (digitsToNat p.2 : Int))
  else none

def parseUnsignedFloat (cs : List Char) : Option Rat :=
  let intPart := cs.takeWhile isAsciiDigit
  let rest := cs.dropWhile isAsciiDigit
  match rest with
  | [] => if intPart = [] then none else some (digitsToNat intPart : Rat)
  | '.' :: frac =>
    if frac.all isAsciiDigit ∧ (intPart ≠ [] ∨ frac ≠ []) then
      some ((digitsToNat intPart : Rat) + (digitsToNat frac : Rat) / ((10 : Rat) ^ frac.length))
    else none
  | _ => none

/-- Python `float(s)` on a canonical decimal numeral. -/
def parseFloatPy (s : String) : Option Rat :=
  let p := splitSign s.data
  (parseUnsignedFloat p.2).map (fun q => if p.1 then -q else q)

/-- Model of `input(msg)` on the input stream: consume one line; `none`
models an exhausted stream. -/
def read_line : List String → Option (String × List String)
  | [] => none
  | s :: rest => some (s, rest)

/-- Model of `ask_for_number(msg)` (float mode, source lines 217-232): keep
consuming lines until one parses as a float; re-prompt otherwise. -/
def ask_for_number_float : List String → Option (Rat × List String)
  | [] => none
  | s :: rest =>
    match parseFloatPy s with
    | some v => some (v, rest)
    | none => ask_for_number_float rest

/-- Model of `ask_for_number(msg, "int")`: keep consuming lines until one
parses as an integer. -/
def ask_for_number_int : List String → Option (Int × List String)
  | [] => none
  | s :: rest =>
    match parseIntPy s with
    | some v => some (v, rest)
    | none => ask_for_number_int rest

/-- Model of `yes_or_no` (source lines 235-247): loop until the line is
exactly `"y"` (return `True`) or exactly `"n"` (return `False`); anything
else re-prompts. -/
def yes_or_no : List String → Option (Bool × List String)
  | [] => none
  | s :: rest =>
    if s = "y" then some (true, rest)
    else if s = "n" then some (false, rest)
    else yes_or_no rest

/-! ### Adding an expense (source lines 51-63) -/

/-- Body of `add_expense` after the initial over-budget gate: read the
description, read the amount, and if the new expense would push the balance
below `0` ask for confirmation; `"n"` aborts without appending, otherwise the
expense is appended at the end of the list. -/
def add_expense_entry (budget : Rat) (expenses : List Expense)
    (inputs : List String) : Option (List Expense × List String) := do
  let r1 ← read_line inputs
  let r2 ← ask_for_number_float r1.2
  if get_balance budget expenses - r2.1 < 0 then do
    let r3 ← yes_or_no r2.2
    if r3.1 then some (expenses ++ [⟨r1.1, r2.1⟩], r3.2)
    else some (expenses, r3.2)
  else
    some (expenses ++ [⟨r1.1, r2.1⟩], r2.2)

/-- Model of `add_expense`: when the balance is already negative, ask whether
to continue (`"n"` aborts with the list unchanged); then run the entry flow. -/
def add_expense (budget : Rat) (expenses : List Expense)
    (inputs : List String) : Option (List Expense × List String) :=
  if get_balance budget expenses < 0 then do
    let r ← yes_or_no inputs
    if r.1 then add_expense_entry budget expenses r.2
    else some (expenses, r.2)
  else add_expense_entry budget expenses inputs

/-! ### Selecting, deleting and editing an expense (source lines 118-190) -/

/-- Model of `select_expense`: repeatedly ask for an integer until it lies in
`range(len(expenses))`; out-of-range or non-numeric input re-prompts.  The
highlighting of the chosen row is presentation only and is not modelled. -/
def select_expense (expenses : List Expense) :
    List String → Option (Nat × List String)
  | [] => none
  | s :: rest =>
    match parseIntPy s with
    | none => select_expense expenses rest
    | some n =>
      if 0 ≤ n ∧ n < (expenses.length : Int) then some (n.toNat, rest)
      else select_expense expenses rest

/-- CPython `list.pop(i)`: a negative index is first shifted by `len`; an
index outside `[-len, len)` raises `IndexError` (`none`); otherwise the
element at the normalised position is removed and returned. -/
def pyListPop (xs : List Expense) (i : Int) :
    Option (Expense × List Expense) :=
  let idx := if i < 0 then i + (xs.length : Int) else i
  if 0 ≤ idx ∧ idx < (xs.length : Int) then
    some (xs.getD idx.toNat default, xs.take idx.toNat ++ xs.drop (idx.toNat + 1))
  else none

/-- Model of `delete_budget_details`: with no expenses, return unchanged;
otherwise select an index and `pop` it, reporting the deleted record (returned
here as the middle component). -/
def delete_budget_details (expenses : List Expense) (inputs : List String) :
    Option (List Expense × Option Expense × List String) :=
  if expenses.length = 0 then some (expenses, none, inputs)
  else do
    let sel ← select_expense expenses inputs
    let popped ← pyListPop expenses (sel.1 : Int)
    some (popped.2, some popped.1, sel.2)

/-- In-place `expenses[i]['description'] = text` (source line 181). -/
def update_description : List Expense → Nat → String → List Expense
  | [], _, _ => []
  | e :: es, 0, text => ⟨text, e.amount⟩ :: es
  | e :: es, i + 1, text => e :: update_description es i text

/-- In-place `expenses[i]['amount'] = value` (source line 185). -/
def update_amount : List Expense → Nat → Rat → List Expense
  | [], _, _ => []
  | e :: es, 0, v => ⟨e.description, v⟩ :: es
  | e :: es, i + 1, v => e :: update_amount es i v

/-- The mode loop of `edit_budget_details` (source lines 167-190): `"1"` edits
the description, `"2"` edits the amount, anything else re-prompts. -/
def edit_mode_loop (expenses : List Expense) (choice : Nat) :
    List String → Option (List Expense × List String)
  | [] => none
  | mode :: rest =>
    if mode = "1" then do
      let r ← read_line rest
      some (update_description expenses choice r.1, r.2)
    else if mode = "2" then do
      let r ← ask_for_number_float rest
      some (update_amount expenses choice r.1, r.2)
    else edit_mode_loop expenses choice rest

/-- Model of `edit_budget_details`: with no expenses, return unchanged;
otherwise select an index and run the mode loop on it. -/
def edit_budget_details (expenses : List Expense) (inputs : List String) :
    Option (List Expense × List String) :=
  if expenses.length = 0 then some (expenses, inputs)
  else do
    let sel ← select_expense expenses inputs
    edit_mode_loop expenses sel.1 sel.2

/-! ### Persistence (source lines 91-97 and 193-199)

The stored document is JSON; `Json` models the JSON values the tracker can
meet, `FileContent` models what `open` + `json.load` can see. -/

inductive Json where
  | num (q : Rat)
  | str (s : String)
  | arr (elts : List Json)
  | obj (fields : List (String × Json))

/-- What the loader finds at the file path: no file (`FileNotFoundError`),
text that fails JSON parsing (`json.JSONDecodeError`), or a JSON document. -/
inductive FileContent where
  | missing
  | notJson
  | json (doc : Json)

/-- Python `data[key]` on a parsed JSON value: key lookup on an object
(`KeyError` when absent), `TypeError` on a list/number/string subscripted
with a string. -/
def jsonGetItem (j : Json) (key : String) : Except PyError Json :=
  match j with
  | .obj fields =>
    match fields.lookup key with
    | some v => .ok v
    | none => .error .keyError
  | _ => .error .typeError

/-- JSON encoding of one expense record, as `json.dump` writes it. -/
def json_of_expense (e : Expense) : Json :=
  .obj [("description", .str e.description), ("amount", .num e.amount)]

/-- Model of `save_budget_data`: serialize the document with fields
`initial_budget` and `expenses` to the file. -/
def save_budget_data (initial_budget : Rat) (expenses : List Expense) :
    FileContent :=
  .json (.obj [("initial_budget", .num initial_budget),
               ("expenses", .arr (expenses.map json_of_expense))])

/-- Model of `load_budget_data`: `FileNotFoundError` and `json.JSONDecodeError` are
caught and yield the defaults `(0, [])`; any other exception raised while
reading `data['initial_budget']` or `data['expenses']` propagates. -/
def load_budget_data : FileContent → Except PyError (Json × Json)
  | .missing => .ok (.num 0, .arr [])
  | .notJson => .ok (.num 0, .arr [])
  | .json doc => do
    let b ← jsonGetItem doc "initial_budget"
    let es ← jsonGetItem doc "expenses"
    .ok (b, es)

/-- Decode one JSON expense record back into an `Expense`. -/
def expense_of_json : Json → Option Expense
  | .obj [("description", .str d), ("amount", .num a)] => some ⟨d, a⟩
  | _ => none

/-- Decode a JSON list of expense records. -/
def expenses_of_json : List Json → Option (List Expense)
  | [] => some []
  | j :: js => do
    let e ← expense_of_json j
    let tl ← expenses_of_json js
    some (e :: tl)

/-- Decode the pair returned by `load_budget_data` back into a budget state. -/
def state_of_loaded : Json × Json → Option (Rat × List Expense)
  | (.num b, .arr js) => (expenses_of_json js).map (fun es => (b, es))
  | _ => none

/-! ### Formatter (source lines 24-48)

`strip_ansi` removes ANSI control sequences matching the source regex: a CSI
introducer (the single byte 0x9B, or 0x1B followed by a left bracket), then
any parameter bytes (0x30 to 0x3F), then any intermediate bytes (0x20 to
0x2F), then exactly one final byte (0x40 to 0x7E).  The three byte classes
are pairwise disjoint, so the greedy scan below matches the backtracking
regex engine exactly. -/

def isCsiParamByte (c : Char) : Bool := 0x30 ≤ c.toNat && c.toNat ≤ 0x3F

def isCsiInterByte (c : Char) : Bool := 0x20 ≤ c.toNat && c.toNat ≤ 0x2F

def isCsiFinalByte (c : Char) : Bool := 0x40 ≤ c.toNat && c.toNat ≤ 0x7E

/-- Match parameter bytes, intermediate bytes and one final byte at the head
of `cs`; on success return the remainder after the final byte. -/
def matchCsiBody (cs : List Char) : Option (List Char) :=
  match (cs.dropWhile isCsiParamByte).dropWhile isCsiInterByte with
  | [] => none
  | c :: rest => if isCsiFinalByte c then some rest else none

theorem length_dropWhile_le (p : Char → Bool) (l : List Char) :
    (l.dropWhile p).length ≤ l.length := by
  induction l with
  | nil => simp
  | cons a as ih =>
    simp only [List.dropWhile]
    cases p a
    · simp
    · simp only [List.length_cons]
      exact le_trans ih (Nat.le_succ _)

theorem matchCsiBody_length_lt {cs rem : List Char}
    (h : matchCsiBody cs = some rem) : rem.length < cs.length := by
  have h1 := length_dropWhile_le isCsiParamByte cs
  have h2 := length_dropWhile_le isCsiInterByte (cs.dropWhile isCsiParamByte)
  unfold matchCsiBody at h
  cases hm : (cs.dropWhile isCsiParamByte).dropWhile isCsiInterByte with
  | nil => rw [hm] at h; cases h
  | cons c rest =>
    rw [hm] at h h2
    by_cases hf : isCsiFinalByte c
    · simp [hf] at h
      subst h
      simp only [List.length_cons] at h2
      omega
    · simp [hf] at h

def stripAnsiAux (cs : List Char) : List Char :=
  match cs with
  | [] => []
  | c :: rest =>
    if c = Char.ofNat 0x9B then
      match hm : matchCsiBody rest with
      | some rem => stripAnsiAux rem
      | none => c :: stripAnsiAux rest
    else if c = Char.ofNat 0x1B then
      match rest with
      | '[' :: rest2 =>
        match hm : matchCsiBody rest2 with
        | some rem => stripAnsiAux rem
        | none => c :: '[' :: stripAnsiAux rest2
      | [] => [c]
      | d :: rest2 => c :: stripAnsiAux (d :: rest2)
    else c :: stripAnsiAux rest
termination_by cs.length
decreasing_by
  all_goals
    first
    | (have hlen := matchCsiBody_length_lt hm; simp only [List.length_cons]; omega)
    | (simp only [List.length_cons]; omega)

/-- Model of `strip_ansi`: the source's regex substitution removing
color/cursor escape sequences. -/
def strip_ansi (txt : String) : String := String.mk (stripAnsiAux txt.data)

def spacesStr (n : Nat) : String := String.mk (List.replicate n ' ')

def blocksStr (n : Nat) : String := String.mk (List.replicate n '█')

/-- Model of `TextBoxer.print`: compute the maximum visible width of the lines
(Python `max(...)` raises `ValueError` on an empty sequence) and render the
bordered box; the returned list holds the printed lines. -/
def textBoxer_print (lines : List String) : Except PyError (List String) :=
  match lines.map (fun l => (strip_ansi l).length) with
  | [] => .error .valueError
  | w :: ws =>
    let max_width := ws.foldl Nat.max w
    .ok ([blocksStr (max_width + 4),
          "█ " ++ spacesStr max_width ++ " █"]
      ++ lines.map (fun line =>
           "█ " ++ line ++ spacesStr (max_width - (strip_ansi line).length) ++ " █")
      ++ ["█ " ++ spacesStr max_width ++ " █",
          blocksStr (max_width + 4)])

/-! ### Session startup (source lines 279-281) -/

/-- After loading, `main` treats a budget of exactly `0` as unset and prompts
for an initial budget before entering the menu loop. -/
def main_startup (initial_budget : Rat) (inputs : List String) :
    Option (Rat × List String) :=
  if initial_budget = 0 then ask_for_number_float inputs
  else some (initial_budget, inputs)

/-! ## Theorems -/

theorem foldl_add_amount (l : List Expense) (a : Rat) :
    l.foldl (fun acc e => acc + e.amount) a = a + (l.map (fun e => e.amount)).sum := by
  induction l generalizing a with
  | nil => simp
  | cons e es ih => simp [ih, add_assoc]

/-- C5: `get_total_expenses` returns the sum of all amounts (`0` on the empty
list) and `get_balance` returns the budget minus that sum, with negative
results allowed, e.g. a balance of `-50` for budget `100` and one expense of
amount `150`. -/
theorem totals_and_balance_spec (budget : Rat) (expenses : List Expense) :
    get_total_expenses expenses = (expenses.map (fun e => e.amount)).sum ∧
    get_total_expenses [] = 0 ∧
    get_balance budget expenses = budget - get_total_expenses expenses ∧
    get_balance 100 [⟨"a", 30⟩] = 70 ∧
    get_balance 100 [⟨"a", 150⟩] = -50 := by
  refine ⟨?_, rfl, rfl, by norm_num [get_balance, get_total_expenses],
    by norm_num [get_balance, get_total_expenses]⟩
  simpa using foldl_add_amount expenses 0

theorem yes_or_no_first_answer {inputs : List String} {b : Bool} {rest : List String}
    (h : yes_or_no inputs = some (b, rest)) :
    ∃ junk, inputs = junk ++ (if b then "y" else "n") :: rest ∧
      ∀ t ∈ junk, t ≠ "y" ∧ t ≠ "n" := by
  induction inputs with
  | nil => cases h
  | cons s tl ih =>
    by_cases hy : s = "y"
    · subst hy
      simp [yes_or_no] at h
      exact ⟨[], by simp [h.1, h.2], by simp⟩
    · by_cases hn : s = "n"
      · subst hn
        simp [yes_or_no, hy] at h
        exact ⟨[], by simp [h.1, h.2], by simp⟩
      · rw [show yes_or_no (s :: tl) = yes_or_no tl by simp [yes_or_no, hy, hn]] at h
        obtain ⟨junk, hj, hall⟩ := ih h
        refine ⟨s :: junk, by simp [hj], ?_⟩
        intro t ht
        rcases List.mem_cons.mp ht with ht | ht
        · subst ht; exact ⟨hy, hn⟩
        · exact hall t ht

/-- C10: `yes_or_no` answers `True` exactly on the line `"y"` and `False`
exactly on the line `"n"`; any other line (including `"Y"`, `"yes"`, the
empty line) re-prompts, and a returned value is always determined by the
first exact `"y"` or `"n"` in the input. -/
theorem yes_or_no_spec (inputs rest : List String) (s : String) (b : Bool) :
    yes_or_no ("y" :: rest) = some (true, rest) ∧
    yes_or_no ("n" :: rest) = some (false, rest) ∧
    (s ≠ "y" → s ≠ "n" → yes_or_no (s :: rest) = yes_or_no rest) ∧
    (yes_or_no inputs = some (b, rest) →
      ∃ junk, inputs = junk ++ (if b then "y" else "n") :: rest ∧
        ∀ t ∈ junk, t ≠ "y" ∧ t ≠ "n") := by
  refine ⟨by simp [yes_or_no], by simp [yes_or_no], ?_, yes_or_no_first_answer⟩
  intro hy hn
  simp [yes_or_no, hy, hn]

theorem yes_or_no_spec_witness :
    yes_or_no ["Y", "n"] = yes_or_no ["n"] ∧
    (∃ junk, (["Y", "n"] : List String) = junk ++ (if (false : Bool) then "y" else "n") :: [] ∧
      ∀ t ∈ junk, t ≠ "y" ∧ t ≠ "n") :=
  ⟨(yes_or_no_spec ["Y", "n"] ["n"] "Y" false).2.2.1 (by decide) (by decide),
   (yes_or_no_spec ["Y", "n"] [] "Y" false).2.2.2 (by decide)⟩

theorem select_expense_in_range {expenses : List Expense}
    {inputs rest : List String} {i : Nat}
    (h : select_expense expenses inputs = some (i, rest)) :
    i < expenses.length := by
  induction inputs with
  | nil => cases h
  | cons s tl ih =>
    rw [select_expense] at h
    cases hp : parseIntPy s with
    | none => rw [hp] at h; exact ih h
    | some n =>
      rw [hp] at h
      have h' : (if 0 ≤ n ∧ n < (expenses.length : Int) then some (n.toNat, tl)
          else select_expense expenses tl) = some (i, rest) := h
      by_cases hr : 0 ≤ n ∧ n < (expenses.length : Int)
      · rw [if_pos hr] at h'
        have hi : n.toNat = i := by cases h'; rfl
        omega
      · rw [if_neg hr] at h'; exact ih h'

/-- C6: `select_expense` only ever returns an index in `[0, length)`; a line
that does not parse as an integer, or parses to an integer outside
`range(len(expenses))`, is consumed by a re-prompt and the selection goes on
with the remaining input (the expense list itself is never touched). -/
theorem select_expense_spec (expenses : List Expense)
    (inputs rest : List String) (s : String) (i : Nat) (n : Int) :
    (select_expense expenses inputs = some (i, rest) → i < expenses.length) ∧
    (parseIntPy s = none →
      select_expense expenses (s :: rest) = select_expense expenses rest) ∧
    (parseIntPy s = some n → n < 0 ∨ (expenses.length : Int) ≤ n →
      select_expense expenses (s :: rest) = select_expense expenses rest) := by
  refine ⟨select_expense_in_range, ?_, ?_⟩
  · intro hp
    rw [select_expense, hp]
  · intro hp hout
    rw [select_expense, hp]
    show (if 0 ≤ n ∧ n < (expenses.length : Int) then some (n.toNat, rest)
        else select_expense expenses rest) = select_expense expenses rest
    rw [if_neg (by omega)]

theorem select_expense_spec_witness :
    (1 < ([⟨"A", 1⟩, ⟨"B", 2⟩, ⟨"C", 3⟩] : List Expense).length) ∧
    select_expense [⟨"A", 1⟩, ⟨"B", 2⟩, ⟨"C", 3⟩] ["x", "1"] =
      select_expense [⟨"A", 1⟩, ⟨"B", 2⟩, ⟨"C", 3⟩] ["1"] ∧
    select_expense [⟨"A", 1⟩, ⟨"B", 2⟩, ⟨"C", 3⟩] ["5", "1"] =
      select_expense [⟨"A", 1⟩, ⟨"B", 2⟩, ⟨"C", 3⟩] ["1"] :=
  ⟨(select_expense_spec [⟨"A", 1⟩, ⟨"B", 2⟩, ⟨"C", 3⟩] ["5", "1"] [] "x" 1 5).1 (by decide),
   (select_expense_spec [⟨"A", 1⟩, ⟨"B", 2⟩, ⟨"C", 3⟩] [] ["1"] "x" 0 5).2.1 (by decide),
   (select_expense_spec [⟨"A", 1⟩, ⟨"B", 2⟩, ⟨"C", 3⟩] [] ["1"] "5" 0 5).2.2 (by decide)
     (by decide)⟩

/-- C9: `TextBoxer.print` fails (Python `max()` on an empty sequence raises
`ValueError`) exactly when the list of lines is empty; any non-empty list of
lines renders successfully, so non-emptiness is an implicit precondition. -/
theorem textboxer_print_spec (lines : List String) :
    (lines = [] → textBoxer_print lines = .error .valueError) ∧
    (lines ≠ [] → ∃ out, textBoxer_print lines = .ok out) := by
  constructor
  · intro h; subst h; rfl
  · intro h
    cases lines with
    | nil => exact absurd rfl h
    | cons l ls => exact ⟨_, rfl⟩

theorem textboxer_print_spec_witness :
    textBoxer_print [] = .error .valueError ∧
    ∃ out, textBoxer_print ["hi"] = .ok out :=
  ⟨(textboxer_print_spec []).1 rfl,
   (textboxer_print_spec ["hi"]).2 (List.cons_ne_nil _ _)⟩

/-- C8: at startup, a loaded budget of exactly `0` makes `main` prompt for an
initial budget (the next numeric input becomes the budget); any non-zero
loaded budget enters the menu loop without consuming input. -/
theorem main_startup_spec (b : Rat) (inputs rest : List String) (s : String) (v : Rat) :
    (b = 0 → parseFloatPy s = some v → main_startup b (s :: rest) = some (v, rest)) ∧
    (b ≠ 0 → main_startup b inputs = some (b, inputs)) := by
  constructor
  · intro hb hp
    subst hb
    simp [main_startup, ask_for_number_float, hp]
  · intro hb
    simp [main_startup, hb]

theorem main_startup_spec_witness :
    main_startup 0 ["250"] = some (250, []) ∧
    main_startup 5 ["250"] = some (5, ["250"]) :=
  ⟨(main_startup_spec 0 [] [] "250" 250).1 rfl (by decide),
   (main_startup_spec 5 ["250"] [] "0" 0).2 (by norm_num)⟩

theorem expenses_of_json_of_map (es : List Expense) :
    expenses_of_json (es.map json_of_expense) = some es := by
  induction es with
  | nil => rfl
  | cons e tl ih => simp [expenses_of_json, json_of_expense, expense_of_json, ih]

/-- C1: persistence round trip — loading the file written by
`save_budget_data` succeeds and returns exactly the saved budget and expense
list (after undoing the JSON encoding of the records). -/
theorem persistence_round_trip (b : Rat) (es : List Expense) :
    load_budget_data (save_budget_data b es) =
      .ok (Json.num b, Json.arr (es.map json_of_expense)) ∧
    state_of_loaded (Json.num b, Json.arr (es.map json_of_expense)) = some (b, es) := by
  constructor
  · rfl
  · simp [state_of_loaded, expenses_of_json_of_map es]

/-- C4 counterexample: a file whose content is a syntactically valid JSON
document that is malformed as a budget file (an object without the required
fields) makes `load_budget_data` raise `KeyError` rather than return the
default state. -/
theorem load_fallback_counterexample :
    load_budget_data (.json (.obj [])) = .error .keyError := rfl

/-- C4 (amended): a missing file or content that fails JSON parsing yields
the default state `(0, [])` with no error; but JSON content lacking the
required fields propagates `KeyError` (or `TypeError` for a non-object
document), so the silent fallback covers only `FileNotFoundError` and
`json.JSONDecodeError`. -/
theorem load_fallback_spec :
    load_budget_data .missing = .ok (.num 0, .arr []) ∧
    load_budget_data .notJson = .ok (.num 0, .arr []) ∧
    load_budget_data (.json (.obj [("initial_budget", .num 5)])) = .error .keyError ∧
    load_budget_data (.json (.arr [])) = .error .typeError :=
  ⟨rfl, rfl, rfl, rfl⟩

/-- C2: in `add_expense`, when appending the entered expense would push the
balance below `0`, a yes/no confirmation is requested: `"n"` leaves the list
unchanged, `"y"` appends exactly one record with the entered description and
amount at the end; when the balance stays non-negative the record is appended
without confirmation.  The leading gate only fires when the balance is
already negative, where answering `"n"` aborts with no mutation. -/
theorem add_expense_spec (budget : Rat) (expenses : List Expense)
    (d samt : String) (a : Rat) (rest : List String)
    (hp : parseFloatPy samt = some a) :
    (get_balance budget expenses - a < 0 →
      add_expense_entry budget expenses (d :: samt :: "n" :: rest) =
        some (expenses, rest) ∧
      add_expense_entry budget expenses (d :: samt :: "y" :: rest) =
        some (expenses ++ [⟨d, a⟩], rest)) ∧
    (0 ≤ get_balance budget expenses - a →
      add_expense_entry budget expenses (d :: samt :: rest) =
        some (expenses ++ [⟨d, a⟩], rest)) ∧
    (0 ≤ get_balance budget expenses →
      add_expense budget expenses (d :: samt :: rest) =
        add_expense_entry budget expenses (d :: samt :: rest)) ∧
    (get_balance budget expenses < 0 →
      add_expense budget expenses ("n" :: rest) = some (expenses, rest)) := by
  refine ⟨?_, ?_, ?_, ?_⟩
  · intro hlt
    have hlt' : get_balance budget expenses < a := by linarith
    constructor
    · simp [add_expense_entry, read_line, ask_for_number_float, hp, yes_or_no, hlt']
    · simp [add_expense_entry, read_line, ask_for_number_float, hp, yes_or_no, hlt']
  · intro hge
    have hge' : ¬ get_balance budget expenses < a := by linarith
    simp [add_expense_entry, read_line, ask_for_number_float, hp, hge']
  · intro hge
    simp [add_expense, if_neg (not_lt.mpr hge)]
  · intro hlt
    simp [add_expense, if_pos hlt, yes_or_no]

theorem add_expense_spec_witness :
    add_expense_entry 100 [⟨"A", 70⟩] ["B", "40", "n"] = some ([⟨"A", 70⟩], []) ∧
    add_expense_entry 100 [⟨"A", 70⟩] ["B", "40", "y"] =
      some ([⟨"A", 70⟩, ⟨"B", 40⟩], []) ∧
    add_expense_entry 100 [⟨"A", 70⟩] ["B", "20"] = some ([⟨"A", 70⟩, ⟨"B", 20⟩], []) ∧
    add_expense 100 [⟨"A", 70⟩] ["B", "20"] = add_expense_entry 100 [⟨"A", 70⟩] ["B", "20"] ∧
    add_expense 100 [⟨"A", 200⟩] ["n"] = some ([⟨"A", 200⟩], []) := by
  have hover := add_expense_spec 100 [⟨"A", 70⟩] "B" "40" 40 [] (by decide)
  have hunder := add_expense_spec 100 [⟨"A", 70⟩] "B" "20" 20 [] (by decide)
  have hneg := add_expense_spec 100 [⟨"A", 200⟩] "B" "0" 0 [] (by decide)
  have hbal : get_balance 100 [(⟨"A", 70⟩ : Expense)] = 30 := by
    norm_num [get_balance, get_total_expenses]
  refine ⟨?_, ?_, ?_, ?_, ?_⟩
  · exact (hover.1 (by rw [hbal]; norm_num)).1
  · exact (hover.1 (by rw [hbal]; norm_num)).2
  · exact hunder.2.1 (by rw [hbal]; norm_num)
  · exact hunder.2.2.1 (by rw [hbal]; norm_num)
  · exact hneg.2.2.2 (by norm_num [get_balance, get_total_expenses])

/-- C3 counterexample: the index `-1` lies outside `[0, length)` on a
three-element list, yet `pop` does not fail — CPython interprets it as the
last position and removes `{"C", 3}`. -/
theorem pylistpop_counterexample :
    ¬ (0 ≤ (-1 : Int) ∧
        (-1 : Int) < (([⟨"A", 1⟩, ⟨"B", 2⟩, ⟨"C", 3⟩] : List Expense).length : Int)) ∧
    pyListPop [⟨"A", 1⟩, ⟨"B", 2⟩, ⟨"C", 3⟩] (-1) =
      some (⟨"C", 3⟩, [⟨"A", 1⟩, ⟨"B", 2⟩]) := by
  refine ⟨by omega, ?_⟩
  rfl

/-- C3 (amended): for `0 ≤ i < length`, `pop` removes exactly the element at
position `i` and returns it, leaving the prefix before `i` and the suffix
after `i` in their original order; an index at or above `length`, or below
`-length`, raises `IndexError`; a negative index `-length ≤ i < 0` does not
fail but removes the element at position `length + i`.  Inside the program,
`delete_budget_details` only ever passes `pop` the in-range index produced by
`select_expense`. -/
theorem delete_pop_spec (xs : List Expense) (i : Int) :
    (0 ≤ i → i < (xs.length : Int) →
      pyListPop xs i =
        some (xs.getD i.toNat default, xs.take i.toNat ++ xs.drop (i.toNat + 1))) ∧
    ((xs.length : Int) ≤ i ∨ i < -(xs.length : Int) → pyListPop xs i = none) ∧
    (-(xs.length : Int) ≤ i → i < 0 →
      pyListPop xs i = pyListPop xs (i + (xs.length : Int))) ∧
    delete_budget_details [⟨"A", 1⟩, ⟨"B", 2⟩, ⟨"C", 3⟩] ["1"] =
      some ([⟨"A", 1⟩, ⟨"C", 3⟩], some ⟨"B", 2⟩, []) := by
  refine ⟨?_, ?_, ?_, ?_⟩
  · intro h0 hlen
    simp only [pyListPop]
    split_ifs <;> first | rfl | omega
  · intro h
    rcases h with h | h <;>
      · simp only [pyListPop]
        split_ifs <;> first | rfl | omega
  · intro hge hlt
    simp only [pyListPop]
    split_ifs <;> first | rfl | omega
  · rfl

theorem delete_pop_spec_witness :
    pyListPop [⟨"A", 1⟩, ⟨"B", 2⟩, ⟨"C", 3⟩] 1 = some (⟨"B", 2⟩, [⟨"A", 1⟩, ⟨"C", 3⟩]) ∧
    pyListPop [⟨"A", 1⟩, ⟨"B", 2⟩, ⟨"C", 3⟩] 5 = none ∧
    pyListPop [⟨"A", 1⟩, ⟨"B", 2⟩, ⟨"C", 3⟩] (-2) =
      pyListPop [⟨"A", 1⟩, ⟨"B", 2⟩, ⟨"C", 3⟩] 1 := by
  refine ⟨?_, ?_, ?_⟩
  · have h := (delete_pop_spec [⟨"A", 1⟩, ⟨"B", 2⟩, ⟨"C", 3⟩] 1).1 (by omega) (by norm_num)
    simpa using h
  · exact (delete_pop_spec [⟨"A", 1⟩, ⟨"B", 2⟩, ⟨"C", 3⟩] 5).2.1 (Or.inl (by norm_num))
  · have h := (delete_pop_spec [⟨"A", 1⟩, ⟨"B", 2⟩, ⟨"C", 3⟩] (-2)).2.2.1
      (by norm_num) (by omega)
    simpa using h

theorem update_amount_length (es : List Expense) (i : Nat) (v : Rat) :
    (update_amount es i v).length = es.length := by
  induction es generalizing i with
  | nil => rfl
  | cons e tl ih =>
    cases i with
    | zero => rfl
    | succ k => simp [update_amount, ih]

theorem update_amount_getD_self (es : List Expense) (i : Nat) (v : Rat)
    (hi : i < es.length) :
    (update_amount es i v).getD i default =
      ⟨(es.getD i default).description, v⟩ := by
  induction es generalizing i with
  | nil => simp at hi
  | cons e tl ih =>
    cases i with
    | zero => rfl
    | succ k =>
      simp only [update_amount, List.getD_cons_succ]
      exact ih k (by simpa using hi)

theorem update_amount_getD_other (es : List Expense) (i j : Nat) (v : Rat)
    (hj : j ≠ i) :
    (update_amount es i v).getD j default = es.getD j default := by
  induction es generalizing i j with
  | nil => rfl
  | cons e tl ih =>
    cases i with
    | zero =>
      cases j with
      | zero => exact absurd rfl hj
      | succ m => rfl
    | succ k =>
      cases j with
      | zero => rfl
      | succ m =>
        simp only [update_amount, List.getD_cons_succ]
        exact ih k m (by omega)

theorem update_description_length (es : List Expense) (i : Nat) (t : String) :
    (update_description es i t).length = es.length := by
  induction es generalizing i with
  | nil => rfl
  | cons e tl ih =>
    cases i with
    | zero => rfl
    | succ k => simp [update_description, ih]

theorem update_description_getD_self (es : List Expense) (i : Nat) (t : String)
    (hi : i < es.length) :
    (update_description es i t).getD i default =
      ⟨t, (es.getD i default).amount⟩ := by
  induction es generalizing i with
  | nil => simp at hi
  | cons e tl ih =>
    cases i with
    | zero => rfl
    | succ k =>
      simp only [update_description, List.getD_cons_succ]
      exact ih k (by simpa using hi)

theorem update_description_getD_other (es : List Expense) (i j : Nat) (t : String)
    (hj : j ≠ i) :
    (update_description es i t).getD j default = es.getD j default := by
  induction es generalizing i j with
  | nil => rfl
  | cons e tl ih =>
    cases i with
    | zero =>
      cases j with
      | zero => exact absurd rfl hj
      | succ m => rfl
    | succ k =>
      cases j with
      | zero => rfl
      | succ m =>
        simp only [update_description, List.getD_cons_succ]
        exact ih k m (by omega)

/-- C7: editing the amount of expense `i` replaces only that record's amount
field — its description and every other record are untouched — and
symmetrically for the description; concretely, editing the amount of the only
record of a one-element list to `9` through `edit_budget_details` yields
exactly that record with amount `9`. -/
theorem edit_frame_spec (expenses : List Expense) (i j : Nat) (v : Rat)
    (t : String) (hi : i < expenses.length) :
    (update_amount expenses i v).length = expenses.length ∧
    (update_amount expenses i v).getD i default =
      ⟨(expenses.getD i default).description, v⟩ ∧
    (j ≠ i → (update_amount expenses i v).getD j default = expenses.getD j default) ∧
    (update_description expenses i t).length = expenses.length ∧
    (update_description expenses i t).getD i default =
      ⟨t, (expenses.getD i default).amount⟩ ∧
    (j ≠ i →
      (update_description expenses i t).getD j default = expenses.getD j default) ∧
    edit_budget_details [⟨"A", 1⟩] ["0", "2", "9"] = some ([⟨"A", 9⟩], []) :=
  ⟨update_amount_length expenses i v,
   update_amount_getD_self expenses i v hi,
   fun hj => update_amount_getD_other expenses i j v hj,
   update_description_length expenses i t,
   update_description_getD_self expenses i t hi,
   fun hj => update_description_getD_other expenses i j t hj,
   rfl⟩

theorem edit_frame_spec_witness :
    (update_amount [⟨"A", 1⟩, ⟨"B", 2⟩] 0 9).getD 0 default = ⟨"A", 9⟩ ∧
    (update_amount [⟨"A", 1⟩, ⟨"B", 2⟩] 0 9).getD 1 default = ⟨"B", 2⟩ ∧
    (update_description [⟨"A", 1⟩, ⟨"B", 2⟩] 0 "X").getD 0 default = ⟨"X", 1⟩ ∧
    edit_budget_details [⟨"A", 1⟩] ["0", "2", "9"] = some ([⟨"A", 9⟩], []) := by
  have h := edit_frame_spec [⟨"A", 1⟩, ⟨"B", 2⟩] 0 1 9 "X" (by norm_num)
  exact ⟨h.2.1, h.2.2.1 (by omega), h.2.2.2.2.1, h.2.2.2.2.2.2⟩
